import Mathlib

/-!
# S-Mapper input-dispatch core: shallow embedding and verification

This file embeds the input interception and dispatch core of the S-Mapper
repository (`s_mapper/ui.py`, `s_mapper/threads.py`) as executable Lean
definitions and proves properties of the embedded code.

Conventions of the embedding:
* Python `dict`s that preserve insertion order are modelled as association
  lists `List (String × α)`; assignment overwrites in place or appends.
* Wall-clock times (`time.time()` floats, seconds) are modelled in whole
  milliseconds (`Nat`); every duration appearing in the code and in the
  properties is a multiple of 10 ms, so nothing is lost.
* Side effects (Qt signal emission, synthetic key injection) are modelled
  as values in a result type recording which effect the code performed.
-/

namespace SMapper

/-- Python substring test `needle in hay` on strings. -/
def strContains (hay needle : String) : Bool :=
  (List.range (hay.data.length + 1)).any (fun i => needle.data.isPrefixOf (hay.data.drop i))

/-- Python `s.lower()` (ASCII case folding, which covers every string the
program manipulates). -/
def pyToLower (s : String) : String := ⟨s.data.map Char.toLower⟩

/-- Python `s.strip()`: drop leading and trailing whitespace. -/
def pyStrip (s : String) : String :=
  ⟨(((s.data.dropWhile Char.isWhitespace).reverse).dropWhile Char.isWhitespace).reverse⟩

/-- Python `s.lower().strip()`. -/
def pyLowerStrip (s : String) : String := pyStrip (pyToLower s)

/-- Python `s.strip().lower()`. -/
def pyStripLower (s : String) : String := pyToLower (pyStrip s)

/-- Association-list lookup, the embedding of `d.get(k)` / `d[k]` on a
Python dict. -/
def alookup {α : Type} (m : List (String × α)) (k : String) : Option α :=
  (m.find? (fun p => p.1 == k)).map (fun p => p.2)

/-- Membership test, the embedding of `k in d` on a Python dict. -/
def amem {α : Type} (m : List (String × α)) (k : String) : Bool :=
  m.any (fun p => p.1 == k)

/-- Association-list assignment `d[k] = v`: overwrite in place when the key
exists, append otherwise (Python dicts keep insertion order). -/
def aset {α : Type} (m : List (String × α)) (k : String) (v : α) : List (String × α) :=
  if amem m k then m.map (fun p => if p.1 == k then (p.1, v) else p) else m ++ [(k, v)]

/-- The embedding of `d.setdefault(k, v)`. -/
def asetdefault {α : Type} (m : List (String × α)) (k : String) (v : α) : List (String × α) :=
  if amem m k then m else m ++ [(k, v)]

/-- Deletion `del d[k]` (no-op when the key is absent; the source only
deletes keys it has just found). -/
def adel {α : Type} (m : List (String × α)) (k : String) : List (String × α) :=
  m.filter (fun p => p.1 != k)

/-- A mapping `details` dict.  The source stores mapping payloads as plain
dicts whose fields depend on the mapping kind (keyboard / mouse / macro
trigger); absent fields are modelled as `none`.  `window_title` is always
present in the dicts built by `ui.py`. -/
structure MDetails where
  dtype : Option String := none
  source_key : Option String := none
  target_key : Option String := none
  mouse_button : Option String := none
  press_count : Option Int := none
  keyboard_button : Option String := none
  window_title : String := ""
  macro_id : Option String := none
deriving Repr, DecidableEq

/-- The central mapping store `self.mappings`: a dict from window-title
substring to a dict from mapping id to details. -/
abbrev Store : Type := List (String × List (String × MDetails))

/-- The action chosen by the mouse-click dispatcher: either the whole macro
details dict or the mapping's `keyboard_button` payload. -/
inductive ClickAction
  | macroAction (d : MDetails)
  | keyAction (k : String)
deriving Repr, DecidableEq

/-- Inner loop of `KeyMapperApp.on_click`: scan one window bucket's details
dicts in order; skip entries without `mouse_button`; match on normalized
button name and exact `press_count`. -/
def scanMouseBucket (button_name : String) (count : Nat) :
    List (String × MDetails) → Option ClickAction
  | [] => none
  | (_, d) :: rest =>
    match d.mouse_button with
    | none => scanMouseBucket button_name count rest
    | some mb =>
      if pyLowerStrip mb == button_name && d.press_count == some (count : Int) then
        some (if d.dtype == some "macro" then .macroAction d
              else .keyAction (d.keyboard_button.getD ""))
      else scanMouseBucket button_name count rest

/-- Python truthiness of `action_to_run` after a match: a macro match
stores the whole details dict (non-empty, hence truthy); a direct match
stores `keyboard_button`, which is falsy exactly when it is the empty
string. -/
def clickActionTruthy : ClickAction → Bool
  | .macroAction _ => true
  | .keyAction k => !(k == "")

/-- Outer loop of `KeyMapperApp.on_click` (ui.py lines 1410-1428): scan
window buckets in insertion order, entering a bucket when its title is a
substring of the active title.  Any match — truthy or not — resets the
click count to 0 and breaks the inner loop, but the outer
`if action_to_run: break` stops the scan only on a *truthy* action: after
a falsy match (empty `keyboard_button`) the scan continues into later
buckets with the now-reset count.  The returned action is the first
truthy match (a falsy `action_to_run` left at the end fails the
`if not action_to_run: return` guard at line 1430, so it is never
dispatched — modelled as `none`). -/
def scanMouseBuckets (title button_name : String) :
    Store → List (String × Nat) → List (String × Nat) × Option ClickAction
  | [], counts => (counts, none)
  | (w, bucket) :: rest, counts =>
    if strContains title (pyStripLower w) then
      match scanMouseBucket button_name ((alookup counts button_name).getD 0) bucket with
      | some a =>
        let counts1 := aset counts button_name 0
        if clickActionTruthy a then (counts1, some a)
        else scanMouseBuckets title button_name rest counts1
      | none => scanMouseBuckets title button_name rest counts
    else scanMouseBuckets title button_name rest counts

/-- The per-button click-count state owned by the mouse listener context:
`self.click_counts` and `self.last_click_time` (times in ms). -/
structure ClickState where
  click_counts : List (String × Nat)
  last_click_time : List (String × Nat)
deriving Repr, DecidableEq

/-- Result of one `on_click` call: the updated click state and the action
dispatched through `mapping_action_signal` (if any). -/
structure ClickOutcome where
  state : ClickState
  dispatched : Option ClickAction
deriving Repr, DecidableEq

/-- `KeyMapperApp.on_click` for a press event (`pressed=True`), as a pure
transition on the click state.  Mirrors `ui.py` lines 1385-1457: empty
cached title is a no-op; a gap strictly greater than `click_interval`
since a truthy last click resets the count before incrementing; the
bucket scan resets the count on every match but yields only a truthy
action (`if not action_to_run: return` dispatches nothing otherwise);
a truthy action is dispatched unless a macro is running (then the handler
returns without dispatching, after either ignoring the event as synthetic
or requesting an abort). -/
def on_click (mappings : Store) (click_interval : Nat) (title : String)
    (macro_running : Bool) (st : ClickState) (raw_button : String) (now : Nat) :
    ClickOutcome :=
  if title = "" then ⟨st, none⟩ else
  let button_name := pyLowerStrip raw_button
  let counts0 := asetdefault st.click_counts button_name 0
  let counts1 :=
    match alookup st.last_click_time button_name with
    | some t => if t != 0 && now - t > click_interval then aset counts0 button_name 0 else counts0
    | none => counts0
  let counts2 := aset counts1 button_name ((alookup counts1 button_name).getD 0 + 1)
  let lct := aset st.last_click_time button_name now
  match scanMouseBuckets title button_name mappings counts2 with
  | (counts3, none) => ⟨⟨counts3, lct⟩, none⟩
  | (counts3, some a) =>
    if macro_running then ⟨⟨counts3, lct⟩, none⟩
    else ⟨⟨counts3, lct⟩, some a⟩

/-- Run `on_click` over a sequence of press times, recording for each press
whether an action was dispatched. -/
def simulateClicks (mappings : Store) (click_interval : Nat) (title raw_button : String)
    (times : List Nat) : ClickState × List Bool :=
  times.foldl
    (fun acc t =>
      let r := on_click mappings click_interval title false acc.1 raw_button t
      (r.state, acc.2 ++ [r.dispatched.isSome]))
    (⟨[], []⟩, [])

/-- Result of one `KeyMapperApp.on_press` call (ui.py lines 1317-1383), as
the effect the handler performed before returning. -/
inductive PressResult
  | syntheticIgnored
  | abortRequested
  | lowLevelActive
  | noKey
  | noTitle
  | dispatchedMacro (d : MDetails)
  | dispatchedKey (k : Option String)
  | noMatch
deriving Repr, DecidableEq

/-- Inner loop of `on_press`: first details dict in the bucket whose
normalized `source_key` equals the pressed key wins. -/
def scanPressBucket (pressed : String) :
    List (String × MDetails) → Option PressResult
  | [] => none
  | (_, d) :: rest =>
    if pyLowerStrip (d.source_key.getD "") == pressed then
      some (if d.dtype == some "macro" then .dispatchedMacro d
            else .dispatchedKey d.target_key)
    else scanPressBucket pressed rest

/-- Outer loop of `on_press`: buckets with an empty window key are skipped;
a bucket is entered when its normalized title is a substring of the active
title; the first match returns. -/
def scanPressBuckets (title pressed : String) : Store → Option PressResult
  | [] => none
  | (w, bucket) :: rest =>
    if w = "" then scanPressBuckets title pressed rest
    else if strContains title (pyStripLower w) then
      match scanPressBucket pressed bucket with
      | some r => some r
      | none => scanPressBuckets title pressed rest
    else scanPressBuckets title pressed rest

/-- `KeyMapperApp.on_press` as a pure function.  `kbd_active` stands for
`self._kbd_available and self._kbd_enabled`; `rawKey` is the extracted
`key.char` / `key.name` (`none` when extraction yields `None`).  While a
macro is running, an event within the synthetic grace window of the last
injected-event timestamp is ignored, and any other event only requests an
abort of the current macro; both paths return before the mapping scan. -/
def on_press (mappings : Store) (kbd_active macro_running : Bool)
    (now last_injected grace : Nat) (title : String) (rawKey : Option String) :
    PressResult :=
  if macro_running then
    if now - last_injected ≤ grace then .syntheticIgnored else .abortRequested
  else if kbd_active then .lowLevelActive
  else
    match rawKey with
    | none => .noKey
    | some k0 =>
      if k0 = "" then .noKey
      else
        let pressed := pyLowerStrip k0
        if title = "" then .noTitle
        else (scanPressBuckets title pressed mappings).getD .noMatch

/-- C1 — Mouse click-count state machine: with `click_interval = 0.6` s
(600 ms) and a store holding one MouseMapping with `press_count = 2` whose
window substring matches the active title, presses at t = 0, 100 and
900 ms dispatch exactly once, at the second press, and the internal click
count for that button ends at 1: the counter is reset to 0 on match, and a
press more than `click_interval` after the previous press resets the count
to 0 before incrementing.  The mapping's target key is non-empty, as for
every MouseMapping the program creates (`add_mouse_mapping` requires a
truthy `keyboard_button`); an empty target would fail the
`if not action_to_run` truthiness guard and dispatch nothing. -/
theorem click_count_three_presses_one_dispatch
    (w mb tgt b title : String)
    (ht : title ≠ "")
    (htgt : tgt ≠ "")
    (hw : strContains title (pyStripLower w) = true)
    (hb : pyLowerStrip mb = pyLowerStrip b) :
    (simulateClicks [(w, [("Mapping 1",
        { mouse_button := some mb, press_count := some 2,
          keyboard_button := some tgt, window_title := w })])] 600 title b [0, 100, 900]).2
      = [false, true, false] ∧
    alookup (simulateClicks [(w, [("Mapping 1",
        { mouse_button := some mb, press_count := some 2,
          keyboard_button := some tgt, window_title := w })])] 600 title b [0, 100, 900]).1.click_counts
        (pyLowerStrip b) = some 1 := by
  simp [simulateClicks, on_click, ht, htgt, hw, hb, scanMouseBuckets, scanMouseBucket,
    clickActionTruthy, alookup, aset, asetdefault, amem]

/-- Witness for C1 at a concrete store, button and active title. -/
theorem click_count_three_presses_one_dispatch_witness :
    ("my notepad - editor" : String) ≠ "" ∧
    ("a" : String) ≠ "" ∧
    strContains "my notepad - editor" (pyStripLower "notepad") = true ∧
    pyLowerStrip "Left " = pyLowerStrip "left" ∧
    ((simulateClicks [("notepad", [("Mapping 1",
        { mouse_button := some "Left ", press_count := some 2,
          keyboard_button := some "a", window_title := "notepad" })])] 600
        "my notepad - editor" "left" [0, 100, 900]).2
      = [false, true, false] ∧
    alookup (simulateClicks [("notepad", [("Mapping 1",
        { mouse_button := some "Left ", press_count := some 2,
          keyboard_button := some "a", window_title := "notepad" })])] 600
        "my notepad - editor" "left" [0, 100, 900]).1.click_counts
        (pyLowerStrip "left") = some 1) :=
  ⟨by decide, by decide, by decide, by decide,
    click_count_three_presses_one_dispatch "notepad" "Left " "a" "left"
      "my notepad - editor" (by decide) (by decide) (by decide) (by decide)⟩

/-- C10 — While the shared macro-running flag is true, `on_press` never
reaches the mapping scan: an event within the synthetic grace window of
the last injected-event timestamp is ignored outright, and any other event
only requests an abort of the current macro.  The result is fully
determined before the store, title or key are consulted. -/
theorem on_press_blocked_while_macro_running
    (mappings : Store) (kbd_active : Bool) (now last_injected grace : Nat)
    (title : String) (rawKey : Option String) :
    on_press mappings kbd_active true now last_injected grace title rawKey =
      (if now - last_injected ≤ grace then .syntheticIgnored else .abortRequested) := by
  simp [on_press]

/-- The error taxonomy of the specification (§7).  It is part of the
embedding so that "raises `ValidationError`" is statable; the embedded
code itself never constructs an error value, because `ui.py` defines no
such exception class and never raises on bad mapping fields. -/
inductive SMError
  | validationError
deriving Repr, DecidableEq

/-- `KeyMapperApp._add_mapping_details` (ui.py lines 1125-1148) on the
store and id counter.  An empty `window_title` makes the function return
at once — silently, with no exception — leaving store and counter
untouched; otherwise an id is assigned (consuming the counter when the
caller supplied none) and the details are inserted into the window
bucket, which is created on demand.  The returned `Option String` is the
id under which the details were stored. -/
def add_mapping_details (store : Store) (counter : Nat) (d : MDetails)
    (mapping_id : Option String) : Except SMError (Store × Nat × Option String) :=
  let tw := d.window_title
  if tw = "" then .ok (store, counter, none)
  else
    let idc : String × Nat :=
      match mapping_id with
      | some m => (m, counter)
      | none => ("Mapping " ++ toString counter, counter + 1)
    let bucket := (alookup store tw).getD []
    .ok (aset store tw (aset bucket idc.1 d), idc.2, some idc.1)

/-- C3 counterexample — the claim predicts that adding a mapping with an
empty `window_title` raises `ValidationError`; on the code the call
returns successfully (no exception anywhere in `_add_mapping_details`),
merely leaving the store and counter unchanged. -/
theorem add_empty_window_returns_ok :
    add_mapping_details [] 1 { window_title := "" } none
      = Except.ok ([], 1, none) := by rfl

/-- C3 amended — for every store, counter and details dict whose
`window_title` is empty, `_add_mapping_details` rejects the request
silently: it returns without raising, no bucket gains or loses an entry,
and the id counter observable through subsequent adds is unchanged. -/
theorem add_empty_window_rejected_silently
    (store : Store) (counter : Nat) (d : MDetails) (mapping_id : Option String)
    (h : d.window_title = "") :
    add_mapping_details store counter d mapping_id
      = Except.ok (store, counter, none) := by
  simp [add_mapping_details, h]

/-- Witness for the amended C3 at a concrete store and details dict. -/
theorem add_empty_window_rejected_silently_witness :
    ({ window_title := "", source_key := some "a", target_key := some "b" : MDetails }).window_title = "" ∧
    add_mapping_details [("notepad", [("Mapping 1", { window_title := "notepad" })])] 4
        { window_title := "", source_key := some "a", target_key := some "b" } none
      = Except.ok ([("notepad", [("Mapping 1", { window_title := "notepad" })])], 4, none) :=
  ⟨by decide,
    add_empty_window_rejected_silently
      [("notepad", [("Mapping 1", { window_title := "notepad" })])] 4
      { window_title := "", source_key := some "a", target_key := some "b" } none (by decide)⟩

/-- A `_source_index` bucket entry payload: macro mappings store the whole
details dict, direct mappings store `details.get('target_key')` (which may
be absent, hence the `Option`). -/
inductive HookPayload
  | target (tk : Option String)
  | macroDetails (d : MDetails)
deriving Repr, DecidableEq

/-- `self._source_index`: source key → list of `(window_title, payload)`. -/
abbrev SourceIndex : Type := List (String × List (String × HookPayload))

/-- Index rebuild in `KeyMapperApp._refresh_keyboard_hooks` (ui.py lines
1850-1882): every details dict with a truthy `source_key` contributes one
`(window_title, payload)` entry, appended to its key's bucket. -/
def buildSourceIndex (store : Store) : SourceIndex :=
  store.foldl
    (fun idx wb =>
      wb.2.foldl
        (fun idx p =>
          match p.2.source_key with
          | none => idx
          | some sk =>
            if sk = "" then idx
            else
              let payload := if p.2.dtype == some "macro" then HookPayload.macroDetails p.2
                             else HookPayload.target p.2.target_key
              aset idx sk ((alookup idx sk).getD [] ++ [(p.2.window_title, payload)]))
        idx)
    []

/-- First half of `_update_hooks_for_active_title` (ui.py lines 1926-1932):
the source keys having at least one bucket entry whose truthy window title
is a substring of the active title; empty active title matches nothing. -/
def matchingKeys (idx : SourceIndex) (title : String) : Finset String :=
  if title = "" then ∅
  else ((idx.filter
      (fun kb => kb.2.any (fun e => e.1 != "" && strContains title (pyStripLower e.1)))).map
      Prod.fst).toFinset

/-- The fallback at ui.py lines 1938-1939: when no key matched the active
title but the source index is nonempty, fall back to hooking every key of
the index. -/
def activeKeys (idx : SourceIndex) (title : String) : Finset String :=
  let m := matchingKeys idx title
  if m = ∅ then (if idx.isEmpty then ∅ else (idx.map Prod.fst).toFinset) else m

/-- Result of one pass over the `_keyboard_hooks` table: the keys hooked
afterwards and how many hooks the pass installed and removed. -/
structure HookUpdateResult where
  hooks : Finset String
  installed : Nat
  removed : Nat
deriving DecidableEq

/-- `KeyMapperApp._update_hooks_for_active_title` (ui.py lines 1916-2085)
on the hook table: no-op unless the privileged path is enabled; otherwise
install a hook for every active key not yet hooked, then unhook every
hooked key that is not active. -/
def update_hooks_for_active_title (kbd_enabled : Bool) (idx : SourceIndex)
    (title : String) (hooks : Finset String) : HookUpdateResult :=
  if kbd_enabled then
    let ak := activeKeys idx title
    let installedSet := ak \ hooks
    let afterAdd := hooks ∪ installedSet
    let removedSet := afterAdd \ ak
    ⟨afterAdd \ removedSet, installedSet.card, removedSet.card⟩
  else ⟨hooks, 0, 0⟩

/-- `KeyMapperApp._refresh_keyboard_hooks` (ui.py lines 1819-1914): rebuild
the source index from the store, unhook keys that no longer appear in it
at all, then delegate to `_update_hooks_for_active_title` with the cached
active title. -/
def refresh_keyboard_hooks (kbd_available kbd_enabled : Bool) (store : Store)
    (title : String) (hooks : Finset String) : HookUpdateResult :=
  if kbd_available then
    let idx := buildSourceIndex store
    let sk := (idx.map Prod.fst).toFinset
    let removed1 := hooks \ sk
    let hooks1 := hooks ∩ sk
    let u := update_hooks_for_active_title kbd_enabled idx title hooks1
    ⟨u.hooks, u.installed, removed1.card + u.removed⟩
  else ⟨hooks, 0, 0⟩

/-- After an enabled update pass, the hook table equals the active-key set. -/
theorem update_hooks_eq_activeKeys (idx : SourceIndex) (title : String)
    (hooks : Finset String) :
    (update_hooks_for_active_title true idx title hooks).hooks = activeKeys idx title := by
  simp only [update_hooks_for_active_title, if_pos]
  ext k
  simp only [Finset.mem_sdiff, Finset.mem_union]
  tauto

/-- The active-key set only ever mentions keys of the source index. -/
theorem activeKeys_subset_keys (idx : SourceIndex) (title : String) :
    activeKeys idx title ⊆ (idx.map Prod.fst).toFinset := by
  unfold activeKeys matchingKeys
  intro k hk
  by_cases hm : (if title = "" then (∅ : Finset String)
      else ((idx.filter
        (fun kb => kb.2.any (fun e => e.1 != "" && strContains title (pyStripLower e.1)))).map
        Prod.fst).toFinset) = ∅
  · simp only [hm, if_pos] at hk
    by_cases hi : idx.isEmpty
    · simp [hi] at hk
    · simpa [hi] using hk
  · simp only [if_neg hm] at hk
    by_cases ht : title = ""
    · simp [ht] at hm
    · simp only [if_neg ht] at hk
      simp only [List.mem_toFinset, List.mem_map] at hk ⊢
      obtain ⟨kb, hkb, rfl⟩ := hk
      exact ⟨kb, List.mem_of_mem_filter hkb, rfl⟩

/-- The matching-key set of an empty source index is empty. -/
theorem matchingKeys_nil (title : String) : matchingKeys [] title = ∅ := by
  unfold matchingKeys
  split <;> simp

/-- C2 counterexample — one mapping for source key `a` scoped to window
substring `notepad`, active title `browser`: no mapping matches the
active title, yet the enabled refresh installs a hook for `a` (the
fallback at ui.py lines 1938-1939 hooks every indexed key when no key
matches), where the claim predicts that no hook is installed. -/
theorem hook_scoping_counterexample :
    (update_hooks_for_active_title true
        (buildSourceIndex [("notepad", [("Mapping 1",
          { source_key := some "a", target_key := some "b",
            window_title := "notepad" })])]) "browser" ∅).hooks = {"a"} ∧
    matchingKeys
        (buildSourceIndex [("notepad", [("Mapping 1",
          { source_key := some "a", target_key := some "b",
            window_title := "notepad" })])]) "browser" = ∅ := by decide

/-- C2 amended — when privileged interception is enabled, after a hook
refresh a source key is hooked iff it has a mapping whose window substring
matches the active title, **or** no source key at all has a matching
mapping (including when the active title is empty) and the key appears in
the source index — the fallback then hooks every indexed key.  Keys
outside this active set have their hooks removed. -/
theorem hook_installed_iff_match_or_fallback
    (store : Store) (title : String) (hooks : Finset String) (k : String) :
    k ∈ (update_hooks_for_active_title true (buildSourceIndex store) title hooks).hooks ↔
      (k ∈ matchingKeys (buildSourceIndex store) title ∨
       (matchingKeys (buildSourceIndex store) title = ∅ ∧
        k ∈ (((buildSourceIndex store).map Prod.fst).toFinset))) := by
  rw [update_hooks_eq_activeKeys]
  unfold activeKeys
  by_cases hm : matchingKeys (buildSourceIndex store) title = ∅
  · by_cases hi : (buildSourceIndex store).isEmpty
    · rw [List.isEmpty_iff] at hi
      rw [hi] at hm ⊢
      simp [hm, matchingKeys_nil]
    · simp [hm, hi]
  · simp only [if_neg hm]
    constructor
    · intro hk; exact Or.inl hk
    · rintro (hk | ⟨he, _⟩)
      · exact hk
      · exact absurd he hm

/-- C7 — Idempotence of the hook refresh: with the store and the cached
active title unchanged, a second `_refresh_keyboard_hooks` installs zero
hooks and removes zero hooks, and leaves the hook table exactly as the
first call left it. -/
theorem refresh_twice_installs_and_removes_nothing
    (store : Store) (title : String) (hooks : Finset String) :
    (refresh_keyboard_hooks true true store title
        (refresh_keyboard_hooks true true store title hooks).hooks).installed = 0 ∧
    (refresh_keyboard_hooks true true store title
        (refresh_keyboard_hooks true true store title hooks).hooks).removed = 0 ∧
    (refresh_keyboard_hooks true true store title
        (refresh_keyboard_hooks true true store title hooks).hooks).hooks =
      (refresh_keyboard_hooks true true store title hooks).hooks := by
  have h1 : (refresh_keyboard_hooks true true store title hooks).hooks
      = activeKeys (buildSourceIndex store) title := by
    simp [refresh_keyboard_hooks, update_hooks_eq_activeKeys]
  have hsub := activeKeys_subset_keys (buildSourceIndex store) title
  have hinter : activeKeys (buildSourceIndex store) title ∩
      ((buildSourceIndex store).map Prod.fst).toFinset
      = activeKeys (buildSourceIndex store) title := Finset.inter_eq_left.mpr hsub
  have hdiff : activeKeys (buildSourceIndex store) title \
      ((buildSourceIndex store).map Prod.fst).toFinset = ∅ :=
    Finset.sdiff_eq_empty_iff_subset.mpr hsub
  refine ⟨?_, ?_, ?_⟩ <;>
    simp [refresh_keyboard_hooks, update_hooks_for_active_title, h1, hinter, hdiff,
      update_hooks_eq_activeKeys]

/-- Fuel-indexed, non-overlapping, left-to-right replacement on character
lists; the fuel is the list length, so the fuel is never exhausted. -/
def replaceCharsFuel (pat rep : List Char) : Nat → List Char → List Char
  | 0, s => s
  | _, [] => []
  | fuel + 1, c :: rest =>
    if pat ≠ [] && pat.isPrefixOf (c :: rest) then
      rep ++ replaceCharsFuel pat rep fuel ((c :: rest).drop pat.length)
    else c :: replaceCharsFuel pat rep fuel rest

/-- Python `s.replace(pat, rep)` for the nonempty patterns the code uses. -/
def pyReplace (s pat rep : String) : String :=
  ⟨replaceCharsFuel pat.data rep.data s.data.length s.data⟩

/-- Target normalization in the hook callback (ui.py line 2032):
`str(tk).replace(' + ', '+').replace(' ', '')`; `str(None)` is `"None"`. -/
def normalizeTarget (tk : Option String) : String :=
  pyReplace (pyReplace (tk.getD "None") " + " "+") " " ""

/-- The observable effect of one run of the per-key hook callback
installed by `_update_hooks_for_active_title` (ui.py lines 1948-2067). -/
inductive CallbackEffect
  | notDown
  | swallowed
  | modifierResend
  | noTitle
  | enqueuedMacro (d : MDetails)
  | injected (tn : String)
  | resentUnmatched
deriving Repr, DecidableEq

/-- Result of one hook-callback run: its effect and the `_kbd_ignore`
guard map afterwards. -/
structure CallbackResult where
  effect : CallbackEffect
  ignore : List (String × Nat)
deriving Repr, DecidableEq

/-- Bucket scan of the hook callback (ui.py lines 1991-1995): first entry
whose truthy window title is a substring of the lower-cased active title. -/
def findFirstHookMatch (title : String) : List (String × HookPayload) → Option HookPayload
  | [] => none
  | (w, p) :: rest =>
    if w != "" && strContains (pyToLower title) (pyStripLower w) then some p
    else findFirstHookMatch title rest

/-- The hook callback as a pure function of the event, the guard map and
the cached state.  Mirrors ui.py lines 1948-2067: ignore non-press events;
purge expired guard entries, then swallow guarded events; re-emit under a
brief guard when a modifier is held; stop on an empty cached title; then
match the source key's bucket — a macro payload is enqueued under a guard
on the source key (`buildSourceIndex` only stores dict payloads for macro
mappings, so the callback's `tk.get('type') == 'macro'` recheck always
passes), a direct payload is normalized, guarded and injected, and an
unmatched press re-emits the original key under a brief guard. -/
def hook_callback (idx : SourceIndex) (src_key : String) (ignore : List (String × Nat))
    (modifier_held : Bool) (title event_name : String) (event_down : Bool)
    (now : Nat) : CallbackResult :=
  if !event_down then ⟨.notDown, ignore⟩
  else
    let ign1 := ignore.filter (fun p => !(p.2 < now))
    if amem ign1 event_name then ⟨.swallowed, ign1⟩
    else if modifier_held then ⟨.modifierResend, aset ign1 event_name (now + 250)⟩
    else if title = "" then ⟨.noTitle, ign1⟩
    else
      match findFirstHookMatch title ((alookup idx src_key).getD []) with
      | some (.macroDetails d) => ⟨.enqueuedMacro d, aset ign1 event_name (now + 250)⟩
      | some (.target tk) =>
        let tn := normalizeTarget tk
        ⟨.injected tn, aset ign1 tn (now + 250)⟩
      | none => ⟨.resentUnmatched, aset ign1 event_name (now + 250)⟩

/-- Every element of `aset m k v` is an element of `m` or carries `v`. -/
theorem mem_aset {α : Type} (m : List (String × α)) (k : String) (v : α)
    (q : String × α) (hq : q ∈ aset m k v) : q ∈ m ∨ q.2 = v := by
  unfold aset at hq
  split at hq
  · rcases List.mem_map.mp hq with ⟨p, hp, he⟩
    by_cases hk : p.1 == k
    · simp [hk] at he; right; rw [← he]
    · simp [hk] at he; left; rwa [← he]
  · rcases List.mem_append.mp hq with h | h
    · exact Or.inl h
    · right; simp at h; rw [h]

/-- A down-event callback run leaves the guard map either purged, or purged
with one fresh entry expiring at `now + 250`. -/
theorem hook_callback_ignore_cases (idx : SourceIndex) (src_key : String)
    (ignore : List (String × Nat)) (mods : Bool) (title event_name : String) (now : Nat) :
    (hook_callback idx src_key ignore mods title event_name true now).ignore
        = ignore.filter (fun p => !(p.2 < now)) ∨
    ∃ k, (hook_callback idx src_key ignore mods title event_name true now).ignore
        = aset (ignore.filter (fun p => !(p.2 < now))) k (now + 250) := by
  unfold hook_callback
  simp only [Bool.not_true, Bool.false_eq_true, if_false]
  split
  · exact Or.inl rfl
  · split
    · exact Or.inr ⟨event_name, rfl⟩
    · split
      · exact Or.inl rfl
      · split
        · exact Or.inr ⟨event_name, rfl⟩
        · exact Or.inr ⟨_, rfl⟩
        · exact Or.inr ⟨event_name, rfl⟩

/-- C6 — Synthetic-echo loop prevention: (1) after any down-event callback
run no guard entry older than `now` survives (expired entries are purged
before the lookup); (2) a key event whose name has an unexpired guard
entry is swallowed — no remap, no re-emit, no macro enqueue; (3) once every
guard entry for that name has expired, an identical event is processed
normally and triggers its matching direct mapping again. -/
theorem synthetic_guard_loop_prevention
    (idx : SourceIndex) (src_key : String) (ignore : List (String × Nat))
    (mods : Bool) (title event_name : String) (now e : Nat) (tk : Option String) :
    (∀ p ∈ (hook_callback idx src_key ignore mods title event_name true now).ignore,
        now ≤ p.2) ∧
    ((event_name, e) ∈ ignore → now ≤ e →
      (hook_callback idx src_key ignore mods title event_name true now).effect
        = .swallowed) ∧
    ((∀ p ∈ ignore, p.1 = event_name → p.2 < now) → mods = false → title ≠ "" →
      findFirstHookMatch title ((alookup idx src_key).getD []) = some (.target tk) →
      (hook_callback idx src_key ignore mods title event_name true now).effect
        = .injected (normalizeTarget tk)) := by
  have hpur : ∀ q ∈ ignore.filter (fun q => !(q.2 < now)), now ≤ q.2 := by
    intro q hq
    have h2 := (List.mem_filter.mp hq).2
    simpa [Nat.not_lt] using h2
  refine ⟨?_, ?_, ?_⟩
  · intro p hp
    rcases hook_callback_ignore_cases idx src_key ignore mods title event_name now with
      hc | ⟨k, hc⟩
    · rw [hc] at hp; exact hpur p hp
    · rw [hc] at hp
      rcases mem_aset _ _ _ _ hp with h | h
      · exact hpur p h
      · omega
  · intro hmem hle
    have hsurv : (event_name, e) ∈ ignore.filter (fun q => !(q.2 < now)) := by
      rw [List.mem_filter]
      exact ⟨hmem, by simpa [Nat.not_lt] using hle⟩
    have hamem : amem (ignore.filter (fun q => !(q.2 < now))) event_name = true := by
      unfold amem
      rw [List.any_eq_true]
      exact ⟨(event_name, e), hsurv, by simp⟩
    simp [hook_callback, hamem]
  · intro hexp hmods htitle hmatch
    have hamem : amem (ignore.filter (fun q => !(q.2 < now))) event_name = false := by
      unfold amem
      rw [List.any_eq_false]
      intro p hp
      rw [List.mem_filter] at hp
      intro hk
      have hk' : p.1 = event_name := by simpa using hk
      have := hexp p hp.1 hk'
      have h2 := hp.2
      simp [Nat.not_lt] at h2
      omega
    simp [hook_callback, hamem, hmods, htitle, hmatch]

/-- Witness for C6: the same guarded key name is swallowed at `now = 50`
(entry expires at 100) and triggers its mapping again at `now = 200`. -/
theorem synthetic_guard_loop_prevention_witness :
    (hook_callback [("a", [("notepad", HookPayload.target (some "b"))])] "a"
        [("x", 100)] false "my notepad" "x" true 50).effect
      = CallbackEffect.swallowed ∧
    (hook_callback [("a", [("notepad", HookPayload.target (some "b"))])] "a"
        [("x", 100)] false "my notepad" "x" true 200).effect
      = CallbackEffect.injected (normalizeTarget (some "b")) :=
  ⟨(synthetic_guard_loop_prevention [("a", [("notepad", HookPayload.target (some "b"))])]
      "a" [("x", 100)] false "my notepad" "x" 50 100 (some "b")).2.1
      (by decide) (by decide),
   (synthetic_guard_loop_prevention [("a", [("notepad", HookPayload.target (some "b"))])]
      "a" [("x", 100)] false "my notepad" "x" 200 0 (some "b")).2.2
      (by decide) rfl (by decide) (by decide)⟩

/-- Python `s.split(c)` on character lists. -/
def splitOnChar (c : Char) : List Char → List (List Char)
  | [] => [[]]
  | x :: rest =>
    match splitOnChar c rest with
    | [] => [[x]]
    | h :: t => if x = c then [] :: h :: t else (x :: h) :: t

/-- Python `s.startswith(pre)`. -/
def pyStartsWith (s pre : String) : Bool := pre.data.isPrefixOf s.data

/-- Python `s.split(':', 1)[1]` (all call sites guard that `:` occurs). -/
def afterFirstColon (s : String) : String := ⟨(s.data.dropWhile (· ≠ ':')).drop 1⟩

/-- Python `s.split('.', 1)[1]` (all call sites guard that `.` occurs). -/
def afterFirstDot (s : String) : String := ⟨(s.data.dropWhile (· ≠ '.')).drop 1⟩

/-- Python `s.strip(chars)`: drop characters of the set from both ends. -/
def stripSet (cs : List Char) (l : List Char) : List Char :=
  ((l.dropWhile (cs.contains ·)).reverse.dropWhile (cs.contains ·)).reverse

/-- Decimal digits to a natural number. -/
def natOfDigits (l : List Char) : Nat := l.foldl (fun n c => n * 10 + (c.toNat - 48)) 0

/-- Python `float(s)` for the plain decimal forms the macro language uses,
straight to milliseconds (fractional digits beyond the third are sub-ms
and truncated); `none` is a `ValueError`. -/
def parseFloatMs (s : String) : Option Nat :=
  match splitOnChar '.' s.data with
  | [w] => if w ≠ [] && w.all Char.isDigit then some (natOfDigits w * 1000) else none
  | [w, f] =>
    if (w ≠ [] || f ≠ []) && w.all Char.isDigit && f.all Char.isDigit then
      some (natOfDigits w * 1000 + natOfDigits ((f ++ ['0', '0', '0']).take 3))
    else none
  | _ => none

/-- A call the macro runner makes on the `keyboard.Controller`.  The
controller is modelled as the event recorder the repository's own tests
substitute for it (injection failures are outside the model). -/
inductive MacroOp
  | press (k : String)
  | release (k : String)
  | typed (s : String)
deriving Repr, DecidableEq

/-- State threaded through the `MacroThread.run` interpreter: the clock
(ms), the pending `abort_current_macro()` call time (if one was or will be
issued and has not been consumed by a `clear()`), the shared
`app._macro_running` flag, the controller calls so far, and the first
instant at which a sleep loop observed the abort. -/
structure MacroSt where
  now : Nat
  abortPending : Option Nat
  running : Bool
  ops : List MacroOp
  sleepAbortObs : Option Nat
deriving Repr, DecidableEq

/-- `self._current_abort.is_set()` at time `now`, for an abort call issued
at the pending time. -/
def abortSet (ab : Option Nat) (now : Nat) : Bool :=
  match ab with
  | some a => a ≤ now
  | none => false

/-- `time.sleep` of the given duration. -/
def advance (ms : Nat) (st : MacroSt) : MacroSt := { st with now := st.now + ms }

/-- The `sleep:` sub-increment loop (threads.py lines 246-254): sleep in
chunks of at most 50 ms, checking the abort flag before every chunk; the
first abort observation is recorded.  The fuel is `sec + 1`, an upper
bound on the iteration count, so it is never exhausted. -/
def sleepLoopFuel : Nat → Nat → Nat → MacroSt → MacroSt
  | 0, _, _, st => st
  | fuel + 1, waited, sec, st =>
    if waited < sec then
      if abortSet st.abortPending st.now then
        { st with sleepAbortObs := st.sleepAbortObs.orElse (fun _ => some st.now) }
      else
        sleepLoopFuel fuel (waited + min 50 (sec - waited)) sec
          (advance (min 50 (sec - waited)) st)
    else st

/-- The interruptible 50 ms post-action settle delay (threads.py lines
385-395), slept in 20 ms steps with an abort check before each. -/
def postDelayLoop : Nat → Nat → MacroSt → MacroSt
  | 0, _, st => st
  | fuel + 1, waited, st =>
    if waited < 50 then
      if abortSet st.abortPending st.now then st
      else postDelayLoop fuel (waited + 20) (advance 20 st)
    else st

/-- The `key:` action branch (threads.py lines 295-371): split the combo on
`+` (tolerating padded separators), strip quotes, lower-case, drop a
leading `key.` qualifier; with several parts press the modifiers, cycle
the final key and release the modifiers in reverse; with one part cycle
it; with none the `IndexError` falls back to typing the raw name.  A
literal `enter` (or newline) combo earns the longer settle delay. -/
def runKeyAction (keyname : String) (st : MacroSt) : MacroSt :=
  let parts := ((splitOnChar '+' (pyReplace keyname " + " "+").data).map
      (fun p => pyStrip ⟨p⟩)).filter (fun p => p ≠ "")
  let norm := parts.map (fun p =>
    let qp := pyToLower ⟨stripSet ['"', '\''] (pyStrip p).data⟩
    if pyStartsWith qp "key." then afterFirstDot qp else qp)
  let st1 :=
    match norm.reverse with
    | [] => { st with ops := st.ops ++ [.typed keyname] }
    | [k] => { st with ops := st.ops ++ [.press k, .release k] }
    | main :: revMods =>
      { st with ops := st.ops ++ (revMods.reverse.map .press) ++
          [.press main, .release main] ++ (revMods.map .release) }
  if keyname = "enter" || keyname = "\n" then advance 120 st1 else st1

/-- One iteration body of the action loop in `MacroThread.run` (threads.py
lines 240-395), without the top-of-loop abort check: the `sleep:` branch
(whose parse failure raises out of the action body), then the
`text:`/`key:`/unknown chain — a `sleep:` action also hits the unknown
branch's 50 ms nap, since that chain tests only `text:` and `key:` — and
finally the interruptible settle delay. -/
def runAction (act : String) (st : MacroSt) : MacroSt :=
  if pyStartsWith act "sleep:" && (parseFloatMs (afterFirstColon act)).isNone then st
  else
    let st1 :=
      if pyStartsWith act "sleep:" then
        let ms := (parseFloatMs (afterFirstColon act)).getD 0
        sleepLoopFuel (ms + 1) 0 ms st
      else st
    let st2 :=
      if pyStartsWith act "text:" then
        { st1 with ops := st1.ops ++ [.typed (afterFirstColon act)] }
      else if pyStartsWith act "key:" then runKeyAction (afterFirstColon act) st1
      else advance 50 st1
    postDelayLoop 4 0 st2

/-- The action loop: break as soon as the abort flag is observed set. -/
def runActions : List String → MacroSt → MacroSt
  | [], st => st
  | act :: rest, st =>
    if abortSet st.abortPending st.now then st
    else runActions rest (runAction act st)

/-- A queued macro dict: `name` and `actions`. -/
structure Macro where
  name : String
  actions : List String
deriving Repr, DecidableEq

/-- One queue item processed by `MacroThread.run`: set the running flag,
`clear()` any abort request already issued (a request scheduled for later
stays pending), execute the actions, clear the running flag. -/
def runMacro (m : Macro) (st : MacroSt) : MacroSt :=
  let cleared :=
    match st.abortPending with
    | some a => if a ≤ st.now then none else some a
    | none => none
  let st1 := runActions m.actions { st with abortPending := cleared, running := true }
  { st1 with running := false }

/-- The queue-draining worker loop, processing macros strictly FIFO. -/
def runQueue (ms : List Macro) (st : MacroSt) : MacroSt :=
  ms.foldl (fun st m => runMacro m st) st

/-- C5 — Macro abort semantics for `[sleep:1.0, text:HELLO]` with
`abort_current_macro()` issued 200 ms into execution: the sleep loop
observes the abort at exactly 200 ms (within one 50 ms sub-increment of
the request), `text:HELLO` is never typed, the shared macro-running flag
ends false, and the runner goes on to execute the already-queued next
macro (`text:WORLD` runs). -/
theorem macro_abort_semantics :
    (runQueue [⟨"abort1", ["sleep:1.0", "text:HELLO"]⟩, ⟨"next", ["text:WORLD"]⟩]
        ⟨0, some 200, false, [], none⟩).sleepAbortObs = some 200 ∧
    MacroOp.typed "HELLO" ∉
      (runQueue [⟨"abort1", ["sleep:1.0", "text:HELLO"]⟩, ⟨"next", ["text:WORLD"]⟩]
        ⟨0, some 200, false, [], none⟩).ops ∧
    (runQueue [⟨"abort1", ["sleep:1.0", "text:HELLO"]⟩, ⟨"next", ["text:WORLD"]⟩]
        ⟨0, some 200, false, [], none⟩).running = false ∧
    MacroOp.typed "WORLD" ∈
      (runQueue [⟨"abort1", ["sleep:1.0", "text:HELLO"]⟩, ⟨"next", ["text:WORLD"]⟩]
        ⟨0, some 200, false, [], none⟩).ops := by decide

/-- C8 — the repeat shorthand is *not* implemented: running the macro of
the repository's own `test_macro_thread_expands_repeat_shorthand` presses
and releases the literal key names `tab x 3` and `tab x3` once each
instead of cycling the tab key three times per action (zero presses of
`tab` occur, where the claim and the test expect three per action). -/
theorem repeat_shorthand_taken_literally :
    (runQueue [⟨"rep", ["key:tab x 3", "key:tab x3", "text:OK"]⟩]
        ⟨0, none, false, [], none⟩).ops
      = [.press "tab x 3", .release "tab x 3", .press "tab x3", .release "tab x3",
         .typed "OK"] ∧
    ((runQueue [⟨"rep", ["key:tab x 3", "key:tab x3", "text:OK"]⟩]
        ⟨0, none, false, [], none⟩).ops.count (MacroOp.press "tab")) = 0 := by decide

/-- Exceptions that can escape one iteration of the section loop in
`load_mappings_from_config`: `caught` stands for the classes the loop's
handler names (`configparser.NoOptionError`, `ValueError`, `IndexError`),
`uncaught` for anything else — here the `AttributeError` from calling
`.startswith` on `None`. -/
inductive PyExc
  | caught
  | uncaught
deriving Repr, DecidableEq

/-- `int(s)` as used by `configparser`'s `getint` converter. -/
def parseIntPy (s : String) : Option Int :=
  match (pyStrip s).data with
  | '-' :: ds => if ds ≠ [] && ds.all Char.isDigit then some (-(natOfDigits ds : Int)) else none
  | ds => if ds ≠ [] && ds.all Char.isDigit then some ((natOfDigits ds : Int)) else none

/-- One non-Settings section of `mappings.ini` processed by the loop body
of `KeyMapperApp.load_mappings_from_config` (ui.py lines 1636-1677).
`SectionProxy.get` of a missing option yields `None` (not an exception),
and `getint` of a missing option yields `None` too — only an unparseable
`press_count` raises the caught `ValueError`.  A `mouse` section without
`target_key` reaches `None.startswith('Key.')` and raises the *uncaught*
`AttributeError`.  Unknown or missing `type` means `continue` (`none`).
The loaded details dicts carry no `type` key. -/
def processSection (name : String) (fields : List (String × String)) :
    Except PyExc (Option (String × String × MDetails)) := do
  let mtype := alookup fields "type"
  let tw := (alookup fields "window_title").getD ""
  if mtype = some "mouse" then
    let mb := alookup fields "mouse_button"
    let pc : Option Int ←
      match alookup fields "press_count" with
      | none => pure none
      | some v =>
        match parseIntPy v with
        | some n => pure (some n)
        | none => throw PyExc.caught
    let kb : String ←
      match alookup fields "target_key" with
      | none => throw PyExc.uncaught
      | some s => pure (if pyStartsWith s "Key." then afterFirstDot s else s)
    pure (some (tw, name,
      { window_title := tw, mouse_button := mb, press_count := pc,
        keyboard_button := some kb }))
  else if mtype = some "keyboard" then
    pure (some (tw, name,
      { window_title := tw, source_key := alookup fields "source_key",
        target_key := alookup fields "target_key" }))
  else
    pure none

/-- Result of `load_mappings_from_config`: the store and id list as left
behind, and whether an exception propagated out of the method (the store
keeps the sections inserted before the raise; later sections are lost). -/
structure LoadResult where
  store : Store
  ids : List String
  raised : Bool
deriving DecidableEq

/-- The section loop of `load_mappings_from_config`: `DEFAULT`/`Settings`
are skipped; a caught exception logs a warning and continues; an uncaught
one propagates at once (the mutex is released by the `finally`, the store
keeps what was already inserted). -/
def loadSections : List (String × List (String × String)) → Store → List String → LoadResult
  | [], store, ids => ⟨store, ids, false⟩
  | (name, fields) :: rest, store, ids =>
    if name = "DEFAULT" || name = "Settings" then loadSections rest store ids
    else
      match processSection name fields with
      | .error .caught => loadSections rest store ids
      | .error .uncaught => ⟨store, ids, true⟩
      | .ok none => loadSections rest store ids
      | .ok (some (tw, mid, d)) =>
        loadSections rest (aset store tw (aset ((alookup store tw).getD []) mid d))
          (ids ++ [mid])

/-- `KeyMapperApp.load_mappings_from_config` on the parsed sections: the
store and id list are cleared, then every section is processed in order. -/
def load_mappings_from_config (sections : List (String × List (String × String))) :
    LoadResult :=
  loadSections sections [] []

/-- C9 — loading does *not* skip every malformed mouse section: a `mouse`
section missing `target_key` raises an `AttributeError` that the loop's
`except (NoOptionError, ValueError, IndexError)` does not catch, so the
exception escapes `load_mappings_from_config`, the well-formed section
after it is never loaded, and only the sections before it survive; and a
`mouse` section missing `press_count` is not skipped either — it loads
with `press_count = None`. -/
theorem mouse_section_missing_field_not_skipped :
    load_mappings_from_config
        [("Mapping 1", [("type", "keyboard"), ("window_title", "notepad"),
            ("source_key", "a"), ("target_key", "b")]),
         ("Mapping 2", [("type", "mouse"), ("window_title", "chrome"),
            ("mouse_button", "left"), ("press_count", "2")]),
         ("Mapping 3", [("type", "keyboard"), ("window_title", "word"),
            ("source_key", "c"), ("target_key", "d")])]
      = ⟨[("notepad", [("Mapping 1",
            { window_title := "notepad", source_key := some "a",
              target_key := some "b" })])], ["Mapping 1"], true⟩ ∧
    load_mappings_from_config
        [("Mapping 1", [("type", "mouse"), ("window_title", "x"),
            ("mouse_button", "left"), ("target_key", "k")])]
      = ⟨[("x", [("Mapping 1",
            { window_title := "x", mouse_button := some "left",
              press_count := none, keyboard_button := some "k" })])],
          ["Mapping 1"], false⟩ := by decide


/-- Does the window bucket hold an entry for the mapping id? -/
def bucketHas (b : List (String × MDetails)) (mid : String) : Bool :=
  b.any (fun p => p.1 == mid)

/-- In how many window buckets of the store does the mapping id occur? -/
def bucketsWith (store : Store) (mid : String) : Nat :=
  store.countP (fun wb => bucketHas wb.2 mid)

/-- The scan at ui.py lines 687-690: the key of the first bucket holding
the mapping id. -/
def findOldWindow (store : Store) (mid : String) : Option String :=
  (store.find? (fun wb => bucketHas wb.2 mid)).map (fun wb => wb.1)

/-- `KeyMapperApp._save_edited_mapping`, store part (ui.py lines 683-710):
an empty target window is rejected before the critical section; inside the
mutex the mapping id is deleted from the bucket it is found in, that
bucket is pruned if it became empty, and the details are inserted into
the (possibly new) target-window bucket — all in one critical section. -/
def save_edited_mapping (store : Store) (mid target_window : String) (nd : MDetails) :
    Store :=
  if target_window = "" then store
  else
    match findOldWindow store mid with
    | none => store
    | some oldW =>
      let store1 : Store := store.map
        (fun wb => if wb.1 == oldW then (wb.1, wb.2.filter (fun p => p.1 != mid)) else wb)
      let store2 : Store := store1.filter (fun wb => !(wb.1 == oldW && wb.2.isEmpty))
      let store3 : Store :=
        if amem store2 target_window then store2 else store2 ++ [(target_window, [])]
      store3.map (fun wb => if wb.1 == target_window then (wb.1, aset wb.2 mid nd) else wb)

/-- Deleting an id from a bucket removes it. -/
theorem bucketHas_filter_out (b : List (String × MDetails)) (mid : String) :
    bucketHas (b.filter (fun p => p.1 != mid)) mid = false := by
  unfold bucketHas
  rw [List.any_eq_false]
  intro p hp
  have h2 := (List.mem_filter.mp hp).2
  simp at h2 ⊢
  exact h2

/-- Inserting an id into a bucket makes it present. -/
theorem bucketHas_aset (b : List (String × MDetails)) (mid : String) (nd : MDetails) :
    bucketHas (aset b mid nd) mid = true := by
  unfold bucketHas aset
  by_cases h : amem b mid
  · rw [if_pos h]
    unfold amem at h
    rw [List.any_eq_true] at h ⊢
    obtain ⟨p, hp, hpk⟩ := h
    exact ⟨(p.1, nd), List.mem_map.mpr ⟨p, hp, by simp [hpk]⟩, hpk⟩
  · rw [if_neg h]
    rw [List.any_eq_true]
    exact ⟨(mid, nd), List.mem_append.mpr (Or.inr (by simp)), by simp⟩

/-- An association list is nonempty after an assignment. -/
theorem aset_ne_nil {α : Type} (m : List (String × α)) (k : String) (v : α) :
    aset m k v ≠ [] := by
  unfold aset
  split
  · intro h
    rename_i hmem
    unfold amem at hmem
    rw [List.map_eq_nil_iff] at h
    subst h
    simp at hmem
  · simp

/-- After the delete phase no bucket holds the moved id, provided the id
occurred in exactly one bucket (the store invariant). -/
theorem store1_no_mid (store : Store) (mid : String)
    (fb : String × List (String × MDetails))
    (hfind : store.find? (fun wb => bucketHas wb.2 mid) = some fb)
    (hcount : store.countP (fun wb => bucketHas wb.2 mid) = 1) :
    ∀ wb ∈ store.map (fun wb => if wb.1 == fb.1 then
        (wb.1, wb.2.filter (fun p => p.1 != mid)) else wb),
      bucketHas wb.2 mid = false := by
  intro wb hwb
  rw [List.mem_map] at hwb
  obtain ⟨b, hb, rfl⟩ := hwb
  by_cases hk : b.1 == fb.1
  · simp only [hk, if_true]
    exact bucketHas_filter_out b.2 mid
  · simp only [hk, if_false]
    by_contra hhas
    rw [Bool.not_eq_false] at hhas
    have hfb_mem := List.mem_of_find?_eq_some hfind
    have hfb_p := List.find?_some hfind
    have hbf : b ∈ store.filter (fun wb => bucketHas wb.2 mid) :=
      List.mem_filter.mpr ⟨hb, hhas⟩
    have hfbf : fb ∈ store.filter (fun wb => bucketHas wb.2 mid) :=
      List.mem_filter.mpr ⟨hfb_mem, hfb_p⟩
    rw [List.countP_eq_length_filter] at hcount
    obtain ⟨x, hx⟩ := List.length_eq_one.mp hcount
    rw [hx, List.mem_singleton] at hbf hfbf
    rw [hbf, ← hfbf] at hk
    simp at hk

/-- Inserting into a key absent from a mid-free store leaves the id count
at zero off the insertion path. -/
theorem insert_countP_zero (l : Store) (tw mid : String) (nd : MDetails)
    (hnomid : ∀ wb ∈ l, bucketHas wb.2 mid = false)
    (hzero : l.countP (fun wb => wb.1 == tw) = 0) :
    (l.map (fun wb => if wb.1 == tw then (wb.1, aset wb.2 mid nd) else wb)).countP
      (fun wb => bucketHas wb.2 mid) = 0 := by
  induction l with
  | nil => rfl
  | cons hd tl ih =>
    rw [List.countP_cons] at hzero
    by_cases hk : hd.1 == tw
    · rw [if_pos hk] at hzero
      omega
    · have hz : tl.countP (fun wb => wb.1 == tw) = 0 :=
        Nat.eq_zero_of_add_eq_zero_right hzero
      rw [List.map_cons, List.countP_cons]
      simp only [hk, if_false]
      rw [ih (fun wb hwb => hnomid wb (List.mem_cons_of_mem hd hwb)) hz]
      have := hnomid hd (List.mem_cons_self hd tl)
      simp [this]

/-- Inserting the id into the unique target-window bucket of a mid-free
store makes it occur in exactly one bucket. -/
theorem insert_countP_one (l : Store) (tw mid : String) (nd : MDetails)
    (hnomid : ∀ wb ∈ l, bucketHas wb.2 mid = false)
    (hone : l.countP (fun wb => wb.1 == tw) = 1) :
    (l.map (fun wb => if wb.1 == tw then (wb.1, aset wb.2 mid nd) else wb)).countP
      (fun wb => bucketHas wb.2 mid) = 1 := by
  induction l with
  | nil => simp at hone
  | cons hd tl ih =>
    rw [List.countP_cons] at hone
    rw [List.map_cons, List.countP_cons]
    by_cases hk : hd.1 == tw
    · have hz : tl.countP (fun wb => wb.1 == tw) = 0 := by
        rw [if_pos hk] at hone
        omega
      rw [insert_countP_zero tl tw mid nd
        (fun wb hwb => hnomid wb (List.mem_cons_of_mem hd hwb)) hz]
      simp only [hk, if_true]
      simp [bucketHas_aset]
    · have h1 : tl.countP (fun wb => wb.1 == tw) = 1 := by
        rw [if_neg hk] at hone
        omega
      rw [ih (fun wb hwb => hnomid wb (List.mem_cons_of_mem hd hwb)) h1]
      simp only [hk, if_false]
      have := hnomid hd (List.mem_cons_self hd tl)
      simp [this]

/-- After the create-if-absent step, exactly one bucket carries the
target-window key (window keys are duplicate-free, as in a dict). -/
theorem ensure_bucket_countP_one (l : Store) (tw : String)
    (hnd : (l.map Prod.fst).Nodup) :
    ((if amem l tw then l else l ++ [(tw, [])]) : Store).countP
      (fun wb => wb.1 == tw) = 1 := by
  by_cases hmem : amem l tw
  · rw [if_pos hmem]
    have hcnt : l.countP (fun wb => wb.1 == tw) = (l.map Prod.fst).count tw := by
      rw [List.count, List.countP_map]
      rfl
    have hle : (l.map Prod.fst).count tw ≤ 1 := List.nodup_iff_count_le_one.mp hnd tw
    have htwmem : tw ∈ l.map Prod.fst := by
      unfold amem at hmem
      rw [List.any_eq_true] at hmem
      obtain ⟨p, hp, hpk⟩ := hmem
      rw [List.mem_map]
      exact ⟨p, hp, by simpa using hpk⟩
    have hge : 0 < (l.map Prod.fst).count tw := List.count_pos_iff.mpr htwmem
    omega
  · rw [if_neg hmem]
    rw [List.countP_append]
    have hz : l.countP (fun wb => wb.1 == tw) = 0 := by
      rw [List.countP_eq_zero]
      intro p hp
      unfold amem at hmem
      rw [Bool.not_eq_true, List.any_eq_false] at hmem
      exact hmem p hp
    rw [hz]
    simp
/-- C4 — editing a mapping's window moves it atomically: for every store
with duplicate-free window keys and no empty buckets, every mapping id
present in exactly one bucket, and every nonempty new window value, after
`_save_edited_mapping` the id is again present in exactly one bucket
(never zero, never two) and no bucket of the store is empty (the old
bucket was pruned if the move emptied it).  The whole remove-plus-insert
is one transition of the embedded function, mirroring the single
`QMutexLocker` critical section in the source. -/
theorem update_moves_id_to_exactly_one_bucket
    (store : Store) (mid tw : String) (nd : MDetails)
    (hkeys : (store.map Prod.fst).Nodup)
    (htw : tw ≠ "")
    (hmid : bucketsWith store mid = 1)
    (hne : ∀ wb ∈ store, wb.2 ≠ []) :
    bucketsWith (save_edited_mapping store mid tw nd) mid = 1 ∧
    ∀ wb ∈ save_edited_mapping store mid tw nd, wb.2 ≠ [] := by
  unfold bucketsWith at hmid
  have hpos : 0 < store.countP (fun wb => bucketHas wb.2 mid) := by omega
  rw [List.countP_pos_iff] at hpos
  have hsome : (store.find? (fun wb => bucketHas wb.2 mid)).isSome := by
    rw [List.find?_isSome]
    exact hpos
  obtain ⟨fb, hfind⟩ := Option.isSome_iff_exists.mp hsome
  have hfw : findOldWindow store mid = some fb.1 := by
    unfold findOldWindow
    rw [hfind]
    rfl
  unfold save_edited_mapping
  rw [if_neg htw, hfw]
  set g : String × List (String × MDetails) → String × List (String × MDetails) :=
    fun wb => if wb.1 == fb.1 then (wb.1, wb.2.filter (fun p => p.1 != mid)) else wb with hg
  set store1 : Store := store.map g with hs1
  set store2 : Store := store1.filter (fun wb => !(wb.1 == fb.1 && wb.2.isEmpty)) with hs2
  set store3 : Store := if amem store2 tw then store2 else store2 ++ [(tw, [])] with hs3
  have h1 : ∀ wb ∈ store1, bucketHas wb.2 mid = false :=
    store1_no_mid store mid fb hfind hmid
  have h2 : ∀ wb ∈ store2, bucketHas wb.2 mid = false := by
    intro wb hwb
    exact h1 wb (List.mem_of_mem_filter hwb)
  have h3 : ∀ wb ∈ store3, bucketHas wb.2 mid = false := by
    intro wb hwb
    rw [hs3] at hwb
    by_cases hmem : amem store2 tw
    · rw [if_pos hmem] at hwb
      exact h2 wb hwb
    · rw [if_neg hmem] at hwb
      rcases List.mem_append.mp hwb with h | h
      · exact h2 wb h
      · rw [List.mem_singleton] at h
        subst h
        rfl
  have hkeys1 : store1.map Prod.fst = store.map Prod.fst := by
    rw [hs1, List.map_map]
    apply List.map_congr_left
    intro a _
    show (g a).1 = a.1
    rw [hg]
    by_cases hk : a.1 == fb.1 <;> simp [hk]
  have hkeys2 : (store2.map Prod.fst).Nodup := by
    have hsub : store2.Sublist store1 := List.filter_sublist _
    have hsubm : (store2.map Prod.fst).Sublist (store1.map Prod.fst) := hsub.map _
    exact (hkeys1 ▸ hkeys).sublist hsubm
  have hsplit : ∀ x, x ∈ store3 → x ∈ store2 ∨ x = (tw, ([] : List (String × MDetails))) := by
    intro x hx
    rw [hs3] at hx
    by_cases hmem : amem store2 tw
    · rw [if_pos hmem] at hx
      exact Or.inl hx
    · rw [if_neg hmem] at hx
      rcases List.mem_append.mp hx with h | h
      · exact Or.inl h
      · right
        simpa using h
  constructor
  · unfold bucketsWith
    apply insert_countP_one store3 tw mid nd h3
    rw [hs3]
    exact ensure_bucket_countP_one store2 tw hkeys2
  · intro wb hwb
    obtain ⟨b, hb, rfl⟩ := List.mem_map.mp hwb
    by_cases hk : b.1 == tw
    · simp only [hk, if_true]
      exact aset_ne_nil b.2 mid nd
    · have hb2 : b ∈ store2 := by
        rcases hsplit b hb with h | h
        · exact h
        · subst h
          simp at hk
      have hmf := List.mem_filter.mp hb2
      obtain ⟨hb1, hq⟩ := hmf
      obtain ⟨a, ha, hag⟩ := List.mem_map.mp hb1
      have hbne : b.2 ≠ [] := by
        by_cases hka : a.1 == fb.1
        · have hag' : (a.1, a.2.filter (fun p => p.1 != mid)) = b := by
            rw [← hag, hg]
            simp only [hka, if_true]
          have hbk : (b.1 == fb.1) = true := by
            rw [← hag']
            exact hka
          rw [hbk] at hq
          simp at hq
          exact hq
        · have hag' : a = b := by
            rw [← hag, hg]
            simp [hka]
          subst hag'
          exact hne a ha
      simpa [hk] using hbne
/-- Concrete store for the C4 witness: two window buckets, one mapping
each. -/
def c4_store : Store :=
  [("notepad", [("Mapping 1", { window_title := "notepad", source_key := some "a", target_key := some "b" })]),
   ("word", [("Mapping 2", { window_title := "word", source_key := some "c", target_key := some "d" })])]

/-- New details for the C4 witness: `Mapping 1` retargeted to `chrome`. -/
def c4_new_details : MDetails :=
  { window_title := "chrome", source_key := some "a", target_key := some "z" }

/-- Witness for C4: moving `Mapping 1` from the `notepad` bucket (which is
pruned) to a fresh `chrome` bucket. -/
theorem update_moves_id_to_exactly_one_bucket_witness :
    (c4_store.map Prod.fst).Nodup ∧
    ("chrome" : String) ≠ "" ∧
    bucketsWith c4_store "Mapping 1" = 1 ∧
    (bucketsWith (save_edited_mapping c4_store "Mapping 1" "chrome" c4_new_details)
        "Mapping 1" = 1 ∧
      ∀ wb ∈ save_edited_mapping c4_store "Mapping 1" "chrome" c4_new_details,
        wb.2 ≠ []) :=
  ⟨by decide, by decide, by decide,
    update_moves_id_to_exactly_one_bucket c4_store "Mapping 1" "chrome" c4_new_details
      (by decide) (by decide) (by decide) (by decide)⟩

end SMapper
